import Mathlib

/-!
Shallow embedding of the oflog dashboard (src/oflog.py): a fixed tabular
dataset of adult social care records, three view callbacks over it
(regional table, local-authority comparison chart, regional bar chart),
and a pathname router.  Callbacks that raise PreventUpdate are modelled
as returning none; the reactive controller is modelled as a step function
on an application state.
-/

namespace Oflog

/-- A row of the CSV loaded at line 9 of oflog.py.  Region, local
authority name and Measure are strings; Financial year may be missing in
the CSV (pandas NaN), hence Option; Value is kept as the raw string cell,
numeric coercion being applied by the callbacks that need it. -/
structure Record where
  region : String
  localAuthorityName : String
  measure : String
  financialYear : Option String
  value : String
deriving DecidableEq

/-- Accumulates decimal digits; fails on any non-digit character. -/
def parseDigitsAux : List Char → Nat → Option Nat
  | [], acc => some acc
  | c :: cs, acc =>
      if c.isDigit then parseDigitsAux cs (acc * 10 + (c.toNat - 48)) else none

/-- Parses a non-empty all-digit string. -/
def parseDigits (cs : List Char) : Option Nat :=
  match cs with
  | [] => none
  | _ => parseDigitsAux cs 0

/-- Parses an unsigned decimal numeral, with an optional fractional part
after a dot. -/
def toNumericPos (cs : List Char) : Option ℚ :=
  let intPart := cs.takeWhile (fun c => c ≠ '.')
  match cs.dropWhile (fun c => c ≠ '.') with
  | [] => (parseDigits intPart).map (fun n => (n : ℚ))
  | _ :: fracPart =>
      match parseDigits intPart, parseDigits fracPart with
      | some n, some f => some ((n : ℚ) + (f : ℚ) / ((10 : ℚ) ^ fracPart.length))
      | _, _ => none

/-- Model of pd.to_numeric(errors := coerce) on a single cell, restricted
to plain signed decimal numerals: a cell that does not parse coerces to
none (NaN). -/
def toNumeric (s : String) : Option ℚ :=
  match s.data with
  | '-' :: rest => (toNumericPos rest).map (fun q => -q)
  | cs => toNumericPos cs

/-- Embedding of update_table (oflog.py lines 69-73): a None region
raises PreventUpdate (none); otherwise the dataset is filtered to the
rows whose Region equals the selection and returned as records. -/
def update_table (df : List Record) (selected_region : Option String) :
    Option (List Record) :=
  match selected_region with
  | none => none
  | some r => some (df.filter (fun x => decide (x.region = r)))

/-- A row of the dataframe handed to px.line by update_comparison_chart:
all original columns, with Value coerced to a number and Financial year
known to be present (rows failing either were dropped at line 109). -/
structure CRow where
  region : String
  localAuthorityName : String
  measure : String
  financialYear : String
  value : ℚ
deriving DecidableEq

/-- Coercion-and-dropna step of update_comparison_chart (lines 106-109):
Value is coerced to numeric and the row is dropped when the coercion
fails or Financial year is missing. -/
def coerceRow (r : Record) : Option CRow :=
  match toNumeric r.value, r.financialYear with
  | some v, some fy => some ⟨r.region, r.localAuthorityName, r.measure, fy, v⟩
  | _, _ => none

/-- Embedding of update_comparison_chart (lines 97-128): an empty
authority list or a falsy measure (None or empty string) raises
PreventUpdate; otherwise rows are filtered by authority membership and
measure equality, Value is coerced, rows with NaN Value or Financial
year are dropped, and the surviving rows are the data of the line
chart, in dataset order. -/
def update_comparison_chart (df : List Record)
    (selected_local_authorities : List String)
    (selected_measure : Option String) : Option (List CRow) :=
  match selected_measure with
  | none => none
  | some m =>
      if selected_local_authorities = [] ∨ m = "" then none
      else
        some (((df.filter (fun x =>
            decide (x.localAuthorityName ∈ selected_local_authorities ∧
              x.measure = m)))).filterMap coerceRow)

/-- Inserts a key into a sorted list of keys. -/
def insertSorted (k : String) : List String → List String
  | [] => [k]
  | x :: xs => if k ≤ x then k :: x :: xs else x :: insertSorted k xs

/-- Insertion sort on group keys, modelling the sorted key order of
pandas groupby. -/
def sortKeys : List String → List String
  | [] => []
  | x :: xs => insertSorted x (sortKeys xs)

/-- Distinct keys of a list. -/
def dedupKeys : List String → List String
  | [] => []
  | k :: ks =>
      let rest := dedupKeys ks
      if k ∈ rest then rest else k :: rest

/-- Embedding of update_regional_bar_chart (lines 163-184): a falsy year
or metric raises PreventUpdate; otherwise rows are filtered by year and
metric, Value is coerced to numeric, and the mean of the non-NaN values
is taken per region (a region all of whose values coerced to NaN keeps a
NaN bar, modelled as none).  The bars are keyed by sorted distinct
regions as pandas groupby yields them. -/
def update_regional_bar_chart (df : List Record)
    (selected_year selected_metric : Option String) :
    Option (List (String × Option ℚ)) :=
  match selected_year, selected_metric with
  | some y, some m =>
      if y = "" ∨ m = "" then none
      else
        let pairs := (df.filter (fun x =>
          decide (x.financialYear = some y ∧ x.measure = m))).map
            (fun x => (x.region, toNumeric x.value))
        some ((sortKeys (dedupKeys (pairs.map Prod.fst))).map (fun r =>
          let vals := (pairs.filter (fun p => decide (p.1 = r))).filterMap Prod.snd
          (r, if vals = [] then none
              else some (vals.sum / (vals.length : ℚ)))))
  | _, _ => none

/-- The three page layouts the router can render. -/
inductive Page where
  | indexPage
  | localAuthorityPage
  | regionalAnalysisPage
deriving DecidableEq

/-- Embedding of display_page (lines 133-139): the comparison layout for
pathname /local-authority, the analysis layout for /regional-analysis,
the regional table layout for anything else (a missing pathname
included, since None compares unequal to both strings). -/
def display_page (pathname : Option String) : Page :=
  if pathname = some "/local-authority" then Page.localAuthorityPage
  else if pathname = some "/regional-analysis" then Page.regionalAnalysisPage
  else Page.indexPage

/-- The application state the reactive controller acts on: the dataset
loaded once at startup and the currently rendered outputs. -/
structure AppState where
  df : List Record
  tableData : List Record
  comparisonFig : List CRow
  regionalFig : List (String × Option ℚ)
  pageContent : Page
deriving DecidableEq

/-- One UI input change, carrying the new values of the inputs of the
callback it triggers. -/
inductive Event where
  | regionChanged (v : Option String)
  | comparisonChanged (las : List String) (m : Option String)
  | analysisChanged (y m : Option String)
  | urlChanged (p : Option String)
deriving DecidableEq

/-- The reactive controller: an input change runs the bound callback on
the dataset; a callback that raises PreventUpdate (none) leaves the
state, its rendered output included, unchanged. -/
def step (s : AppState) : Event → AppState
  | Event.regionChanged v =>
      match update_table s.df v with
      | none => s
      | some t => { s with tableData := t }
  | Event.comparisonChanged las m =>
      match update_comparison_chart s.df las m with
      | none => s
      | some fig => { s with comparisonFig := fig }
  | Event.analysisChanged y m =>
      match update_regional_bar_chart s.df y m with
      | none => s
      | some fig => { s with regionalFig := fig }
  | Event.urlChanged p => { s with pageContent := display_page p }

/-- The values whose arithmetic mean the spec says the bar of region r
shows: the numeric-coerced Value over the dataset rows with the given
region, year and measure, rows failing coercion excluded.  Stated from
the spec wording, to be compared with update_regional_bar_chart. -/
def specRegionMeanVals (df : List Record) (y m r : String) : List ℚ :=
  (df.filter (fun x =>
    decide (x.region = r ∧ x.financialYear = some y ∧ x.measure = m))).filterMap
      (fun x => toNumeric x.value)

/-- Dataset of the scenario in section 8 of the spec: a well-formed
Leeds Spend row, a duplicate of it whose Value cell is malformed, and a
row for another authority. -/
def scenario_df : List Record :=
  [⟨"North", "Leeds", "Spend", some "2019-20", "100"⟩,
   ⟨"North", "Leeds", "Spend", some "2019-20", "bad"⟩,
   ⟨"North", "York", "Spend", some "2019-20", "50"⟩]

/-- Single-region dataset used to exercise the bar-chart mean: two
numeric Value cells and one malformed cell. -/
def bar_df : List Record :=
  [⟨"North", "Leeds", "Spend", some "2019-20", "100"⟩,
   ⟨"North", "York", "Spend", some "2019-20", "200"⟩,
   ⟨"North", "Hull", "Spend", some "2019-20", "bad"⟩]

end Oflog

namespace Oflog

/-- C1: for every non-None selected region R, update_table returns
exactly the records of the dataset whose Region equals R, with all
original columns (whole records) and in the original row order (a
sublist of the dataset). -/
theorem update_table_filters (df : List Record) (R : String) :
    ∃ out, update_table df (some R) = some out ∧ out.Sublist df ∧
      ∀ r : Record, r ∈ out ↔ (r ∈ df ∧ r.region = R) := by
  refine ⟨_, rfl, List.filter_sublist df, ?_⟩
  intro r
  simp [List.mem_filter]

/-- C4: the union, over the distinct region values occurring in the
dataset, of the row sets returned by the single-region filter, equals
the full dataset. -/
theorem update_table_union (df : List Record) (r : Record) :
    r ∈ df ↔ ∃ R, (∃ x ∈ df, x.region = R) ∧
      ∃ out, update_table df (some R) = some out ∧ r ∈ out := by
  constructor
  · intro hr
    exact ⟨r.region, ⟨r, hr, rfl⟩, _, rfl, by simp [List.mem_filter, hr]⟩
  · rintro ⟨R, -, out, hout, hr⟩
    simp only [update_table, Option.some.injEq] at hout
    rw [← hout] at hr
    exact (List.mem_filter.mp hr).1

/-- C5: display_page returns the comparison layout iff the pathname is
/local-authority, the regional-analysis layout iff it is
/regional-analysis, and the regional table layout for every other
pathname. -/
theorem display_page_routes (p : Option String) :
    (display_page p = Page.localAuthorityPage ↔ p = some "/local-authority") ∧
    (display_page p = Page.regionalAnalysisPage ↔ p = some "/regional-analysis") ∧
    (p ≠ some "/local-authority" → p ≠ some "/regional-analysis" →
      display_page p = Page.indexPage) := by
  unfold display_page
  split_ifs with h1 h2 <;> simp_all

/-- Witness for C5 at the concrete pathname /foo. -/
theorem display_page_routes_witness : display_page (some "/foo") = Page.indexPage :=
  (display_page_routes (some "/foo")).2.2 (by decide) (by decide)

/-- C6: a missing selection makes each view callback raise
PreventUpdate (modelled as none) and the controller leave the
previously rendered output, indeed the whole state, unchanged: a None
region for the table, an empty authority list or a missing measure for
the comparison chart, a missing year or metric for the bar chart. -/
theorem prevent_update_preserves (s : AppState) :
    (update_table s.df none = none ∧ step s (Event.regionChanged none) = s) ∧
    (∀ m, update_comparison_chart s.df [] m = none ∧
      step s (Event.comparisonChanged [] m) = s) ∧
    (∀ A, update_comparison_chart s.df A none = none ∧
      step s (Event.comparisonChanged A none) = s) ∧
    (∀ m, update_regional_bar_chart s.df none m = none ∧
      step s (Event.analysisChanged none m) = s) ∧
    (∀ y, update_regional_bar_chart s.df y none = none ∧
      step s (Event.analysisChanged y none) = s) := by
  refine ⟨⟨rfl, rfl⟩, ?_, ?_, ?_, ?_⟩
  · intro m
    cases m <;> exact ⟨rfl, rfl⟩
  · intro A
    exact ⟨rfl, rfl⟩
  · intro m
    cases m <;> exact ⟨rfl, rfl⟩
  · intro y
    cases y <;> exact ⟨rfl, rfl⟩

/-- C7: no callback invocation mutates the loaded dataset: the dataset
component of the state is identical before and after any event. -/
theorem step_preserves_df (s : AppState) (e : Event) : (step s e).df = s.df := by
  cases e <;> dsimp only [step] <;> first | rfl | (split <;> rfl)

/-- C8: every view callback is idempotent and deterministic over the
static dataset: running the same event twice leaves the state exactly
where the first run put it. -/
theorem step_idempotent (s : AppState) (e : Event) : step (step s e) e = step s e := by
  cases e with
  | regionChanged v => cases h : update_table s.df v <;> simp [step, h]
  | comparisonChanged las m =>
      cases h : update_comparison_chart s.df las m <;> simp [step, h]
  | analysisChanged y m =>
      cases h : update_regional_bar_chart s.df y m <;> simp [step, h]
  | urlChanged p => simp [step]

/-- C9: on the scenario dataset, selecting Leeds and Spend yields
exactly one charted point, at financial year 2019-20 with value 100;
the duplicate row with the malformed Value cell is dropped. -/
theorem comparison_chart_drops_malformed :
    update_comparison_chart scenario_df ["Leeds"] (some "Spend") =
      some [⟨"North", "Leeds", "Spend", "2019-20", 100⟩] := by decide

/-- C10: a non-None region matching no row does not suppress the update
and does not fail: update_table returns an empty record list. -/
theorem update_table_no_match (df : List Record) (R : String)
    (h : ∀ r ∈ df, r.region ≠ R) :
    update_table df (some R) = some [] := by
  simp only [update_table, Option.some.injEq]
  rw [List.filter_eq_nil_iff]
  intro r hr
  simpa using h r hr

/-- Witness for C10: filtering the scenario dataset by a region that
occurs nowhere in it clears the table. -/
theorem update_table_no_match_witness :
    update_table [(⟨"North", "Leeds", "Spend", some "2019-20", "100"⟩ : Record)]
      (some "Wales") = some [] :=
  update_table_no_match _ "Wales" (by decide)

end Oflog


namespace Oflog

/-- C2: every row of the comparison chart comes from a dataset row whose
local authority is among the selected ones and whose Measure equals the
selected measure, whose Financial year is present and whose Value
coerces to the charted number. -/
theorem update_comparison_chart_rows (df : List Record) (A : List String)
    (M : String) (out : List CRow) (hA : A ≠ [])
    (hout : update_comparison_chart df A (some M) = some out) :
    ∀ p ∈ out, p.localAuthorityName ∈ A ∧ p.measure = M ∧
      ∃ r ∈ df, r.region = p.region ∧
        r.localAuthorityName = p.localAuthorityName ∧ r.measure = p.measure ∧
        r.financialYear = some p.financialYear ∧
        toNumeric r.value = some p.value := by
  intro p hp
  simp only [update_comparison_chart] at hout
  by_cases hM : A = [] ∨ M = ""
  · simp [hM] at hout
  · rw [if_neg hM, Option.some.injEq] at hout
    rw [← hout] at hp
    obtain ⟨r, hr, hcr⟩ := List.mem_filterMap.mp hp
    obtain ⟨hrdf, hpred⟩ := List.mem_filter.mp hr
    rw [decide_eq_true_eq] at hpred
    rcases h1 : toNumeric r.value with - | v <;>
      rcases h2 : r.financialYear with - | fy <;>
        simp only [coerceRow, Option.some.injEq, h1, h2] at hcr <;>
          first
            | exact Option.noConfusion hcr
            | (rw [← hcr]
               exact ⟨hpred.1, hpred.2, r, hrdf, rfl, rfl, rfl, h2, h1⟩)

/-- Witness for C2 on a one-row dataset. -/
theorem update_comparison_chart_rows_witness :
    ("Leeds" : String) ∈ ["Leeds"] ∧ ("Spend" : String) = "Spend" ∧
      ∃ r ∈ [(⟨"North", "Leeds", "Spend", some "2019-20", "100"⟩ : Record)],
        r.region = "North" ∧ r.localAuthorityName = "Leeds" ∧
        r.measure = "Spend" ∧ r.financialYear = some "2019-20" ∧
        toNumeric r.value = some 100 :=
  update_comparison_chart_rows
    [⟨"North", "Leeds", "Spend", some "2019-20", "100"⟩] ["Leeds"] "Spend"
    [⟨"North", "Leeds", "Spend", "2019-20", 100⟩] (by decide) (by decide)
    ⟨"North", "Leeds", "Spend", "2019-20", 100⟩ (by decide)

/-- The per-region extraction of the bar chart, over any row predicate q:
taking the (region, coerced value) pairs of the rows satisfying q,
keeping those of region R and dropping failed coercions is the same as
filtering the rows by q and the region together and coercing. -/
theorem barVals_general (l : List Record) (q : Record → Bool) (R : String) :
    (((l.filter q).map (fun x => (x.region, toNumeric x.value))).filter
        (fun p => decide (p.1 = R))).filterMap Prod.snd
      = (l.filter (fun x => q x && decide (x.region = R))).filterMap
          (fun x => toNumeric x.value) := by
  induction l with
  | nil => rfl
  | cons r rest ih =>
      cases hq : q r <;> cases hR : decide (r.region = R) <;>
        cases hv : toNumeric r.value <;>
          simp [List.filter_cons, hq, hR, hv, ih, List.filterMap_cons]

/-- The spec's per-region value list, written with the bar chart's
filter shape. -/
theorem specRegionMeanVals_eq (df : List Record) (Y M R : String) :
    specRegionMeanVals df Y M R =
      (df.filter (fun x =>
        decide (x.financialYear = some Y ∧ x.measure = M) &&
          decide (x.region = R))).filterMap (fun x => toNumeric x.value) := by
  unfold specRegionMeanVals
  congr 1
  apply List.filter_congr
  intro x _
  by_cases h1 : x.region = R <;> by_cases h2 : x.financialYear = some Y <;>
    by_cases h3 : x.measure = M <;> simp [h1, h2, h3]

/-- C3: a bar of the regional bar chart carrying value v for region R
means v is the arithmetic mean of the numeric-coerced Value over the
dataset rows with that region, the selected year and the selected
measure, rows failing coercion excluded from sum and count alike. -/
theorem update_regional_bar_chart_mean (df : List Record) (Y M R : String)
    (out : List (String × Option ℚ)) (v : ℚ)
    (hout : update_regional_bar_chart df (some Y) (some M) = some out)
    (hv : (R, some v) ∈ out) :
    v = (specRegionMeanVals df Y M R).sum /
      ((specRegionMeanVals df Y M R).length : ℚ) := by
  simp only [update_regional_bar_chart] at hout
  by_cases hYM : Y = "" ∨ M = ""
  · simp [hYM] at hout
  · rw [if_neg hYM, Option.some.injEq] at hout
    rw [← hout] at hv
    obtain ⟨R2, hR2, heq⟩ := List.mem_map.mp hv
    simp only [Prod.mk.injEq] at heq
    obtain ⟨hR, hval⟩ := heq
    subst hR
    split at hval
    · exact absurd hval (by simp)
    · rw [Option.some.injEq] at hval
      rw [← hval, barVals_general, specRegionMeanVals_eq]

/-- Witness for C3 on the single-region dataset: the bar value 150 is
the mean of the two numeric cells 100 and 200, the malformed cell
excluded. -/
theorem update_regional_bar_chart_mean_witness :
    (150 : ℚ) = (specRegionMeanVals bar_df "2019-20" "Spend" "North").sum /
      ((specRegionMeanVals bar_df "2019-20" "Spend" "North").length : ℚ) :=
  update_regional_bar_chart_mean bar_df "2019-20" "Spend" "North"
    [("North", some 150)] 150
    (by
      have h1 : toNumeric "100" = some 100 := by decide
      have h2 : toNumeric "200" = some 200 := by decide
      have h3 : toNumeric "bad" = none := by decide
      simp only [update_regional_bar_chart, bar_df, List.filter, List.map,
        List.filterMap, dedupKeys, sortKeys, insertSorted, h1, h2, h3]
      norm_num
      exact ⟨⟨by decide, by decide⟩, by simp⟩)
    (by simp)

end Oflog
